import Mathlib

set_option autoImplicit false

/-!
Verification development for the NX monorepo provider
(`src/synced/nixpacks/libs/src/providers/node/nx.rs`).

The Rust module resolves, for a candidate source tree, whether it is an NX
monorepo, which app inside it is the build target, that app's target
configuration (from one of two schema generations), and the concrete build and
start shell commands.  We shallowly embed the module here: the filesystem tree
and environment are modelled as snapshots (`App`, `Env`), `serde_json::Value`
as the inductive `Json`, and the serde-derived (de)serializers for the config
structs as explicit functions following serde's documented semantics
(`Option<T>` treats an explicit JSON `null` as `None`; missing fields of
`Option` type default to `None`; unknown fields are ignored; field aliases
accept either spelling but reject duplicates; required fields of the wrong
shape are errors).
-/

/-- Shallow model of `serde_json::Value`.  Numbers are modelled as integers;
no claim depends on numeric arithmetic, only on the shape of the value. -/
inductive Json where
  | null : Json
  | bool (b : Bool) : Json
  | num (n : Int) : Json
  | str (s : String) : Json
  | arr (xs : List Json) : Json
  | obj (fields : List (String × Json)) : Json

/-- Field lookup in an object's field list (first match). -/
def Json.getField : List (String × Json) → String → Option Json
  | [], _ => none
  | (k, v) :: rest, key => if k = key then some v else Json.getField rest key

/-- Model of `Value::get(key)`: a field of an object, `None` on non-objects. -/
def Json.get : Json → String → Option Json
  | .obj fs, key => Json.getField fs key
  | _, _ => none

/-- Model of `Value::as_str()`. -/
def Json.asStr : Json → Option String
  | .str s => some s
  | _ => none

/-! ## The configuration data model (the serde structs of `nx.rs`) -/

/-- Mirror of `NxJson { default_project: Option<String> }`, with serde alias
`defaultProject`. -/
structure NxJson where
  default_project : Option String

/-- Mirror of `NxTargetOptions { output_path: Option<Value>, main:
Option<String> }`, with serde alias `outputPath`. -/
structure NxTargetOptions where
  output_path : Option Json
  main : Option String

/-- Mirror of `Configuration { production: Option<Value> }`. -/
structure Configuration where
  production : Option Json

/-- Mirror of `Target { executor: String, options: Option<NxTargetOptions>,
configurations: Option<Configuration> }`. -/
structure Target where
  executor : String
  options : Option NxTargetOptions
  configurations : Option Configuration

/-- Mirror of `Targets { build: Target, start: Option<Target> }`. -/
structure Targets where
  build : Target
  start : Option Target

/-- Mirror of `ProjectJson { targets: Targets }`. -/
structure ProjectJson where
  targets : Targets

/-! ## Deserialization (serde semantics)

Each decoder returns `none` exactly when serde's `Deserialize` would return
`Err`.  A field of type `Option<Value>` never fails: serde maps JSON `null`
to `None` and every other value to `Some`.  A field of type `Option<T>` for a
struct or `String` `T` maps a missing key or `null` to `None`, decodes other
values with the deserializer of `T`, and propagates that failure. -/

/-- Decode a JSON value sitting in an `Option<Value>` position: serde maps
`null` to `None` and anything else to `Some`. -/
def normOptValue : Json → Option Json
  | .null => none
  | v => some v

/-- Decode a JSON value sitting in an `Option<String>` position. -/
def normOptString : Json → Option (Option String)
  | .null => some none
  | .str s => some (some s)
  | _ => none

/-- Optional `String` field: a missing key defaults to `None`. -/
def optStringField (fs : List (String × Json)) (k : String) : Option (Option String) :=
  match Json.getField fs k with
  | some v => normOptString v
  | none => some none

/-- Optional struct field decoded by `dec`: a missing key or `null` is `None`,
any other value must decode. -/
def optStructField {α : Type} (fs : List (String × Json)) (k : String)
    (dec : Json → Option α) : Option (Option α) :=
  match Json.getField fs k with
  | some .null => some none
  | some v => (dec v).map some
  | none => some none

/-- Aliased optional `Value` field (serde `alias`): either spelling is
accepted, both present at once is a duplicate-field error. -/
def aliasValueField (fs : List (String × Json)) (k1 k2 : String) :
    Option (Option Json) :=
  match Json.getField fs k1, Json.getField fs k2 with
  | some _, some _ => none
  | some v, none => some (normOptValue v)
  | none, some v => some (normOptValue v)
  | none, none => some none

/-- Aliased optional `String` field. -/
def aliasStringField (fs : List (String × Json)) (k1 k2 : String) :
    Option (Option String) :=
  match Json.getField fs k1, Json.getField fs k2 with
  | some _, some _ => none
  | some v, none => normOptString v
  | none, some v => normOptString v
  | none, none => some none

/-- Deserializer of `NxJson`. -/
def decodeNxJson (j : Json) : Option NxJson :=
  match j with
  | .obj fs => (aliasStringField fs "default_project" "defaultProject").map NxJson.mk
  | _ => none

/-- Deserializer of `NxTargetOptions`. -/
def decodeNxTargetOptions (j : Json) : Option NxTargetOptions :=
  match j with
  | .obj fs =>
    match aliasValueField fs "output_path" "outputPath" with
    | some op =>
      match optStringField fs "main" with
      | some m => some ⟨op, m⟩
      | none => none
    | none => none
  | _ => none

/-- Deserializer of `Configuration`.  Its only field is an `Option<Value>`,
so any JSON object decodes successfully. -/
def decodeConfiguration (j : Json) : Option Configuration :=
  match j with
  | .obj fs =>
    match Json.getField fs "production" with
    | some v => some ⟨normOptValue v⟩
    | none => some ⟨none⟩
  | _ => none

/-- Deserializer of `Target`: `executor` is a required `String` field. -/
def decodeTarget (j : Json) : Option Target :=
  match j with
  | .obj fs =>
    match Json.getField fs "executor" with
    | some (.str e) =>
      match optStructField fs "options" decodeNxTargetOptions with
      | some opts =>
        match optStructField fs "configurations" decodeConfiguration with
        | some cfgs => some ⟨e, opts, cfgs⟩
        | none => none
      | none => none
    | _ => none
  | _ => none

/-- Deserializer of `Targets`: `build` is required, `start` optional. -/
def decodeTargets (j : Json) : Option Targets :=
  match j with
  | .obj fs =>
    match Json.getField fs "build" with
    | some bv =>
      match decodeTarget bv with
      | some b =>
        match optStructField fs "start" decodeTarget with
        | some st => some ⟨b, st⟩
        | none => none
      | none => none
    | none => none
  | _ => none

/-- Deserializer of `ProjectJson`: `targets` is required. -/
def decodeProjectJson (j : Json) : Option ProjectJson :=
  match j with
  | .obj fs =>
    match Json.getField fs "targets" with
    | some tv => (decodeTargets tv).map ProjectJson.mk
    | none => none
  | _ => none

/-! ## Serialization

The derived `Serialize` writes every field in declaration order under its
canonical (non-alias) name; `Option::None` is written as JSON `null`. -/

/-- Serialize an `Option<String>` field value. -/
def encOptString : Option String → Json
  | none => .null
  | some s => .str s

/-- Serialize an `Option<Value>` field value. -/
def encOptJson : Option Json → Json
  | none => .null
  | some j => j

/-- Serialize an optional struct field value. -/
def encOptStruct {α : Type} (f : α → Json) : Option α → Json
  | none => .null
  | some x => f x

/-- Serializer of `Configuration`. -/
def encodeConfiguration (c : Configuration) : Json :=
  .obj [("production", encOptJson c.production)]

/-- Serializer of `NxTargetOptions`. -/
def encodeNxTargetOptions (o : NxTargetOptions) : Json :=
  .obj [("output_path", encOptJson o.output_path), ("main", encOptString o.main)]

/-- Serializer of `Target`. -/
def encodeTarget (t : Target) : Json :=
  .obj [("executor", .str t.executor),
        ("options", encOptStruct encodeNxTargetOptions t.options),
        ("configurations", encOptStruct encodeConfiguration t.configurations)]

/-- Serializer of `Targets`. -/
def encodeTargets (ts : Targets) : Json :=
  .obj [("build", encodeTarget ts.build),
        ("start", encOptStruct encodeTarget ts.start)]

/-- Serializer of `ProjectJson`. -/
def encodeProjectJson (pj : ProjectJson) : Json :=
  .obj [("targets", encodeTargets pj.targets)]

/-- Serializer of `NxJson`. -/
def encodeNxJson (nj : NxJson) : Json :=
  .obj [("default_project", encOptString nj.default_project)]

/-- Predicate for an optional `Value` field not holding an explicit JSON
`null` (the one shape the serde round trip cannot preserve). -/
def noNullOpt : Option Json → Bool
  | some .null => false
  | _ => true

/-- Round-trip safety of a `Target`: neither of its optional `Value` fields
holds an explicit JSON `null`. -/
def targetSafe (t : Target) : Bool :=
  (match t.options with
   | some o => noNullOpt o.output_path
   | none => true) &&
  (match t.configurations with
   | some c => noNullOpt c.production
   | none => true)

/-- Round-trip safety of a `Targets` value. -/
def targetsSafe (ts : Targets) : Bool :=
  targetSafe ts.build &&
  (match ts.start with
   | some st => targetSafe st
   | none => true)

/-- Round-trip safety of a `ProjectJson` value. -/
def projectJsonSafe (pj : ProjectJson) : Bool := targetsSafe pj.targets

/-! ## The filesystem and environment snapshots -/

/-- Snapshot of the `App` tree abstraction, restricted to the capabilities
`nx.rs` consumes.  `files p` is the parsed JSON value of the file at path `p`
when that file exists and its text is valid JSON (so `read_json::<T>` is
`files p` followed by the decoder of `T`, and `read_json::<Value>` is
`files p` itself).  `findDirectories g` models `find_directories(g)`: `none`
for `Err`, otherwise the directory list with each entry reduced to
`file_name().and_then(to_str)`.  `dlxCommand` is the opaque
`NodeProvider::get_package_manager_dlx_command(app)` collaborator. -/
structure App where
  files : String → Option Json
  includesFile : String → Bool
  includesDirectory : String → Bool
  findDirectories : String → Option (List (Option String))
  dlxCommand : String

/-- Snapshot of the `Environment` collaborator. -/
structure Env where
  getConfigVariable : String → Option String

/-- The constant `NX_APP_NAME_ENV_VAR`. -/
def nxAppNameEnvVar : String := "NX_APP_NAME"

/-- Model of the `anyhow` errors of the config loader as the two-way taxonomy
of the specification: the serde error propagated by `?` on
`serde_json::from_value`, and the final not-found error. -/
inductive ConfigError where
  | parseError : ConfigError
  | notFound : ConfigError
deriving DecidableEq

/-! ## Rust path semantics for `file_stem` -/

/-- Split a character list at every `/` (structurally recursive so that the
kernel can evaluate it; `String.splitOn` is defined by well-founded
recursion and does not reduce definitionally). -/
def splitOnSlash : List Char → List (List Char)
  | [] => [[]]
  | c :: rest =>
    match splitOnSlash rest with
    | [] => [[]]
    | h :: t => if c = '/' then [] :: h :: t else (c :: h) :: t

/-- Model of `Path::file_name` for a path built from a (UTF-8) string: the
last component after normalization (empty and `.` components dropped),
provided it is a normal component (not `..`). -/
def rustFileName (p : String) : Option String :=
  let comps := (splitOnSlash p.toList).filter (fun c => !(c.isEmpty || c = ['.']))
  match comps.getLast? with
  | some c => if c = ['.', '.'] then none else some (String.mk c)
  | none => none

/-- Index of the last `.` at a positive position in a file name, if any. -/
def lastDotIndex (cs : List Char) : Option Nat :=
  ((List.range cs.length).filter
    (fun i => decide (1 ≤ i) && decide (cs.get? i = some (Char.ofNat 46)))).getLast?

/-- The stem of a file name: everything before the final `.`, except that a
leading `.` never counts as a separator. -/
def stemOfFileName (n : String) : String :=
  let cs := n.toList
  match lastDotIndex cs with
  | some i => String.mk (cs.take i)
  | none => n

/-- Model of `Path::file_stem` composed with `to_str` on a UTF-8 path. -/
def rustFileStem (p : String) : Option String :=
  (rustFileName p).map stemOfFileName

/-! ## The `Nx` functions -/

/-- Model of `app.read_json::<NxJson>("nx.json")`, flattened to an `Option`. -/
def readNxJson (app : App) : Option NxJson :=
  (app.files "nx.json").bind decodeNxJson

/-- Per-directory test of the auto-detection loop body of `get_nx_app_name`:
the directory has a `project.json`, or has a `package.json` that reads as
JSON and contains a nested `nx.targets` field. -/
def passesCheck (app : App) (appName : String) : Bool :=
  app.includesFile ("apps/" ++ appName ++ "/project.json") ||
    (app.includesFile ("apps/" ++ appName ++ "/package.json") &&
      (match app.files ("apps/" ++ appName ++ "/package.json") with
       | some pkg => ((pkg.get "nx").bind (fun nx => nx.get "targets")).isSome
       | none => false))

/-- The `for app_dir in app_dirs` loop of `get_nx_app_name`: entries whose
`file_name` is not a string are skipped, and the first directory satisfying
one of the two checks is returned. -/
def scanDirs (app : App) : List (Option String) → Option String
  | [] => none
  | none :: rest => scanDirs app rest
  | some appName :: rest =>
    if app.includesFile ("apps/" ++ appName ++ "/project.json") then some appName
    else if app.includesFile ("apps/" ++ appName ++ "/package.json") then
      match app.files ("apps/" ++ appName ++ "/package.json") with
      | some pkg =>
        if ((pkg.get "nx").bind (fun nx => nx.get "targets")).isSome then some appName
        else scanDirs app rest
      | none => scanDirs app rest
    else scanDirs app rest

/-- The third block of `get_nx_app_name`: auto-detect by looking for apps
with valid configurations under `apps/`. -/
def autoDiscover (app : App) : Option String :=
  if app.includesDirectory "apps" then
    match app.findDirectories "apps/*" with
    | some dirs => scanDirs app dirs
    | none => none
  else none

/-- Model of `Nx::get_nx_app_name`. -/
def get_nx_app_name (app : App) (env : Env) : Option String :=
  match env.getConfigVariable nxAppNameEnvVar with
  | some appName => some appName
  | none =>
    match (readNxJson app).bind NxJson.default_project with
    | some defaultProject => some defaultProject
    | none => autoDiscover app

/-- The second half of `get_nx_project_json_for_app`: the new NX 20+ style
`package.json` source, falling through to the final not-found error. -/
def tryPackageJson (app : App) (nxAppName : String) : Except ConfigError ProjectJson :=
  match app.files ("./apps/" ++ nxAppName ++ "/package.json") with
  | some pkg =>
    match pkg.get "nx" with
    | some nx =>
      match nx.get "targets" with
      | some targetsJson =>
        match decodeTargets targetsJson with
        | some targets => .ok ⟨targets⟩
        | none => .error .parseError
      | none => .error .notFound
    | none => .error .notFound
  | none => .error .notFound

/-- Model of `Nx::get_nx_project_json_for_app`. -/
def get_nx_project_json_for_app (app : App) (nxAppName : String) :
    Except ConfigError ProjectJson :=
  match (app.files ("./apps/" ++ nxAppName ++ "/project.json")).bind decodeProjectJson with
  | some projectJson => .ok projectJson
  | none => tryPackageJson app nxAppName

/-- Boolean success test for `Except` (Rust `Result::is_ok`). -/
def exceptOk {ε α : Type} : Except ε α → Bool
  | .ok _ => true
  | .error _ => false

/-- Model of `Nx::is_nx_monorepo`. -/
def is_nx_monorepo (app : App) (env : Env) : Bool :=
  match get_nx_app_name app env with
  | some nxAppName =>
    app.includesFile "nx.json" && exceptOk (get_nx_project_json_for_app app nxAppName)
  | none => false

/-- Model of `Nx::get_nx_output_path`. -/
def get_nx_output_path (app : App) (nxAppName : String) : Except ConfigError String :=
  match get_nx_project_json_for_app app nxAppName with
  | .error e => .error e
  | .ok projectJson =>
    match projectJson.targets.build.options with
    | some options =>
      match options.output_path with
      | some outputPath =>
        match outputPath.asStr with
        | some theOutputPath => .ok theOutputPath
        | none => .ok ("dist/apps/" ++ nxAppName)
      | none => .ok ("dist/apps/" ++ nxAppName)
    | none => .ok ("dist/apps/" ++ nxAppName)

/-- Model of `Nx::get_nx_build_cmd`. -/
def get_nx_build_cmd (app : App) (env : Env) : Option String :=
  (get_nx_app_name app env).map
    (fun nxAppName => app.dlxCommand ++ " nx run " ++ nxAppName ++ ":build:production")

/-- Outcome of `get_nx_start_cmd`: a normal `Result`, or the abort of the
process by a failed `unwrap`. -/
inductive StartResult where
  | panic : StartResult
  | error (e : ConfigError) : StartResult
  | ok (v : Option String) : StartResult
deriving DecidableEq

/-- Model of `Nx::get_nx_start_cmd`.  The `file_stem().unwrap()` of the
source is modelled by `StartResult.panic` when the stem does not exist; the
`to_str().unwrap()` never fails on a path built from a Rust `String` and is
absorbed into `rustFileStem`. -/
def get_nx_start_cmd (app : App) (env : Env) : StartResult :=
  if is_nx_monorepo app env then
    match get_nx_app_name app env with
    | some nxAppName =>
      match get_nx_output_path app nxAppName with
      | .error e => .error e
      | .ok outputPath =>
        match get_nx_project_json_for_app app nxAppName with
        | .error e => .error e
        | .ok projectJson =>
          match projectJson.targets.start with
          | some startTarget =>
            match startTarget.configurations with
            | some configurations =>
              if configurations.production.isSome then
                .ok (some (app.dlxCommand ++ " nx run " ++ nxAppName ++ ":start:production"))
              else
                .ok (some (app.dlxCommand ++ " nx run " ++ nxAppName ++ ":start"))
            | none => .ok (some (app.dlxCommand ++ " nx run " ++ nxAppName ++ ":start"))
          | none =>
            if projectJson.targets.build.executor = "@nx/next:build" ||
                projectJson.targets.build.executor = "@nrwl/next:build" then
              .ok (some ("cd " ++ outputPath ++ " && npm run start"))
            else
              match projectJson.targets.build.options with
              | some options =>
                match options.main with
                | some mainPath =>
                  match rustFileStem mainPath with
                  | some fileName => .ok (some ("node " ++ outputPath ++ "/" ++ fileName ++ ".js"))
                  | none => .panic
                | none => .ok (some ("node " ++ outputPath ++ "/index.js"))
              | none => .ok (some ("node " ++ outputPath ++ "/index.js"))
    | none => .ok none
  else .ok none

/-- Decision table of the five start-command rules as the specification
states them, written from the words of the spec for comparison with
`get_nx_start_cmd` (rule (d) refined to account for the `unwrap`: when
`options.main` is present but has no file stem, the call aborts). -/
def startCommandRules (dlx nm outputPath : String) (pj : ProjectJson) : StartResult :=
  match pj.targets.start with
  | some startTarget =>
    match startTarget.configurations with
    | some configurations =>
      if configurations.production.isSome then
        .ok (some (dlx ++ " nx run " ++ nm ++ ":start:production"))
      else .ok (some (dlx ++ " nx run " ++ nm ++ ":start"))
    | none => .ok (some (dlx ++ " nx run " ++ nm ++ ":start"))
  | none =>
    if pj.targets.build.executor = "@nx/next:build" ∨
        pj.targets.build.executor = "@nrwl/next:build" then
      .ok (some ("cd " ++ outputPath ++ " && npm run start"))
    else
      match pj.targets.build.options.bind NxTargetOptions.main with
      | some mainPath =>
        match rustFileStem mainPath with
        | some stem => .ok (some ("node " ++ outputPath ++ "/" ++ stem ++ ".js"))
        | none => .panic
      | none => .ok (some ("node " ++ outputPath ++ "/index.js"))

/-! ## Concrete trees and environments used in witnesses and counterexamples -/

/-- Legacy `project.json` whose start target configurations object holds the
key `production` with the explicit JSON value `null`. -/
def c1Json : Json :=
  .obj [("targets", .obj
    [("build", .obj [("executor", .str "x")]),
     ("start", .obj [("executor", .str "y"),
                     ("configurations", .obj [("production", Json.null)])])])]

/-- Tree carrying `c1Json` at the legacy path for app `api`. -/
def c1App : App where
  files := fun p => if p = "./apps/api/project.json" then some c1Json else none
  includesFile := fun p => p == "nx.json"
  includesDirectory := fun _ => false
  findDirectories := fun _ => none
  dlxCommand := "npx"

/-- Environment overriding the app name to `api`. -/
def c1Env : Env := ⟨fun v => if v = "NX_APP_NAME" then some "api" else none⟩

/-- Legacy `project.json` whose start configurations hold `production: false`. -/
def c1wJson : Json :=
  .obj [("targets", .obj
    [("build", .obj [("executor", .str "x")]),
     ("start", .obj [("executor", .str "y"),
                     ("configurations", .obj [("production", .bool false)])])])]

/-- Decoded configurations object of `c1wJson`. -/
def c1wCfg : Configuration := ⟨some (Json.bool false)⟩

/-- Decoded start target of `c1wJson`. -/
def c1wStart : Target := ⟨"y", none, some c1wCfg⟩

/-- Decoded project config of `c1wJson`. -/
def c1wPj : ProjectJson := ⟨⟨⟨"x", none, none⟩, some c1wStart⟩⟩

/-- Tree carrying `c1wJson` at the legacy path for app `api`. -/
def c1wApp : App where
  files := fun p => if p = "./apps/api/project.json" then some c1wJson else none
  includesFile := fun p => p == "nx.json"
  includesDirectory := fun _ => false
  findDirectories := fun _ => none
  dlxCommand := "npx"

/-- Environment overriding the app name to `api`. -/
def c1wEnv : Env := ⟨fun v => if v = "NX_APP_NAME" then some "api" else none⟩

/-- Tree whose `apps/` scan yields directories `b` then `a`, both passing. -/
def c2App : App where
  files := fun _ => none
  includesFile := fun p => p == "apps/a/project.json" || p == "apps/b/project.json"
  includesDirectory := fun p => p == "apps"
  findDirectories := fun g => if g = "apps/*" then some [some "b", some "a"] else none
  dlxCommand := "npx"

/-- The same tree as `c2App` with the scan order reversed (`a` then `b`). -/
def c2AppAB : App where
  files := fun _ => none
  includesFile := fun p => p == "apps/a/project.json" || p == "apps/b/project.json"
  includesDirectory := fun p => p == "apps"
  findDirectories := fun g => if g = "apps/*" then some [some "a", some "b"] else none
  dlxCommand := "npx"

/-- Empty environment. -/
def c2Env : Env := ⟨fun _ => none⟩

/-- Legacy `project.json` with no start target and `options.main` the empty
string, which has no file stem. -/
def c3Json : Json :=
  .obj [("targets", .obj
    [("build", .obj [("executor", .str "custom"),
                     ("options", .obj [("main", .str "")])])])]

/-- Tree carrying `c3Json` at the legacy path for app `web`. -/
def c3App : App where
  files := fun p => if p = "./apps/web/project.json" then some c3Json else none
  includesFile := fun p => p == "nx.json"
  includesDirectory := fun _ => false
  findDirectories := fun _ => none
  dlxCommand := "npx"

/-- Environment overriding the app name to `web`. -/
def c3Env : Env := ⟨fun v => if v = "NX_APP_NAME" then some "web" else none⟩

/-- Legacy `project.json` with a start target carrying no configurations. -/
def c3wJson : Json :=
  .obj [("targets", .obj
    [("build", .obj [("executor", .str "x")]),
     ("start", .obj [("executor", .str "y")])])]

/-- Decoded project config of `c3wJson`. -/
def c3wPj : ProjectJson := ⟨⟨⟨"x", none, none⟩, some ⟨"y", none, none⟩⟩⟩

/-- Tree carrying `c3wJson` at the legacy path for app `api`. -/
def c3wApp : App where
  files := fun p => if p = "./apps/api/project.json" then some c3wJson else none
  includesFile := fun p => p == "nx.json"
  includesDirectory := fun _ => false
  findDirectories := fun _ => none
  dlxCommand := "npx"

/-- Environment overriding the app name to `api`. -/
def c3wEnv : Env := ⟨fun v => if v = "NX_APP_NAME" then some "api" else none⟩

/-- Empty tree (not a monorepo). -/
def c3nApp : App where
  files := fun _ => none
  includesFile := fun _ => false
  includesDirectory := fun _ => false
  findDirectories := fun _ => none
  dlxCommand := "npx"

/-- Empty environment. -/
def c3nEnv : Env := ⟨fun _ => none⟩

/-- An `nx` object whose `targets` value is a string and so fails to
deserialize into the `Targets` shape. -/
def c4Targets : Json := .obj [("targets", .str "bad")]

/-- A `package.json` carrying the malformed `nx.targets` of `c4Targets`. -/
def c4Pkg : Json := .obj [("nx", c4Targets)]

/-- Tree with no legacy file and the malformed manifest for app `api`. -/
def c4App : App where
  files := fun p => if p = "./apps/api/package.json" then some c4Pkg else none
  includesFile := fun _ => false
  includesDirectory := fun _ => false
  findDirectories := fun _ => none
  dlxCommand := "npx"

/-- Tree with `nx.json` naming a default project and a scannable `apps/zz`. -/
def c5App : App where
  files := fun p =>
    if p = "nx.json" then some (.obj [("default_project", .str "dflt")]) else none
  includesFile := fun p => p == "apps/zz/project.json"
  includesDirectory := fun p => p == "apps"
  findDirectories := fun g => if g = "apps/*" then some [some "zz"] else none
  dlxCommand := "npx"

/-- Tree like `c5App` but without a readable `nx.json`. -/
def c5AppC : App where
  files := fun _ => none
  includesFile := fun p => p == "apps/zz/project.json"
  includesDirectory := fun p => p == "apps"
  findDirectories := fun g => if g = "apps/*" then some [some "zz"] else none
  dlxCommand := "npx"

/-- Empty tree. -/
def c5AppD : App where
  files := fun _ => none
  includesFile := fun _ => false
  includesDirectory := fun _ => false
  findDirectories := fun _ => none
  dlxCommand := "npx"

/-- Environment overriding the app name to `ov`. -/
def c5EnvA : Env := ⟨fun v => if v = "NX_APP_NAME" then some "ov" else none⟩

/-- Empty environment. -/
def c5EnvN : Env := ⟨fun _ => none⟩

/-- Legacy `project.json` for app `dual`. -/
def c6Leg : Json :=
  .obj [("targets", .obj [("build", .obj [("executor", .str "legacy-exec")])])]

/-- Decoded project config of `c6Leg`. -/
def c6Pj : ProjectJson := ⟨⟨⟨"legacy-exec", none, none⟩, none⟩⟩

/-- The `nx.targets` value of the manifest of app `dual`, describing a
different build target than the legacy file. -/
def c6TgJson : Json := .obj [("build", .obj [("executor", .str "manifest-exec")])]

/-- The `package.json` of app `dual`. -/
def c6PkgJson : Json := .obj [("nx", .obj [("targets", c6TgJson)])]

/-- Tree where both config sources exist for app `dual`. -/
def c6App : App where
  files := fun p =>
    if p = "./apps/dual/project.json" then some c6Leg
    else if p = "./apps/dual/package.json" then some c6PkgJson
    else none
  includesFile := fun _ => false
  includesDirectory := fun _ => false
  findDirectories := fun _ => none
  dlxCommand := "npx"

/-- Legacy `project.json` whose build `output_path` is a string scalar. -/
def c7SJson : Json :=
  .obj [("targets", .obj
    [("build", .obj [("executor", .str "x"),
                     ("options", .obj [("output_path", .str "custom/out")])])])]

/-- Decoded project config of `c7SJson`. -/
def c7SPj : ProjectJson := ⟨⟨⟨"x", some ⟨some (Json.str "custom/out"), none⟩, none⟩, none⟩⟩

/-- Tree carrying `c7SJson` at the legacy path for app `api`. -/
def c7AppS : App where
  files := fun p => if p = "./apps/api/project.json" then some c7SJson else none
  includesFile := fun _ => false
  includesDirectory := fun _ => false
  findDirectories := fun _ => none
  dlxCommand := "npx"

/-- Legacy `project.json` whose build `output_path` is the number 7. -/
def c7NJson : Json :=
  .obj [("targets", .obj
    [("build", .obj [("executor", .str "x"),
                     ("options", .obj [("output_path", .num 7)])])])]

/-- Decoded project config of `c7NJson`. -/
def c7NPj : ProjectJson := ⟨⟨⟨"x", some ⟨some (Json.num 7), none⟩, none⟩, none⟩⟩

/-- Tree carrying `c7NJson` at the legacy path for app `api`. -/
def c7AppN : App where
  files := fun p => if p = "./apps/api/project.json" then some c7NJson else none
  includesFile := fun _ => false
  includesDirectory := fun _ => false
  findDirectories := fun _ => none
  dlxCommand := "npx"

/-- A build target with every optional field populated by non-null values. -/
def c8wBuild : Target := ⟨"e", some ⟨some (Json.str "dist"), some "src/main.ts"⟩, none⟩

/-- A start target with a non-null production configuration value. -/
def c8wStart : Target := ⟨"f", none, some ⟨some (Json.bool true)⟩⟩

/-- A project config combining `c8wBuild` and `c8wStart`. -/
def c8wPj : ProjectJson := ⟨⟨c8wBuild, some c8wStart⟩⟩

/-- Legacy `project.json` with no start target and `options.main` equal to
`..`, which has no file stem. -/
def c9Json : Json :=
  .obj [("targets", .obj
    [("build", .obj [("executor", .str "custom"),
                     ("options", .obj [("main", .str "..")])])])]

/-- Tree carrying `c9Json` at the legacy path for app `srv`. -/
def c9App : App where
  files := fun p => if p = "./apps/srv/project.json" then some c9Json else none
  includesFile := fun p => p == "nx.json"
  includesDirectory := fun _ => false
  findDirectories := fun _ => none
  dlxCommand := "npx"

/-- Environment overriding the app name to `srv`. -/
def c9Env : Env := ⟨fun v => if v = "NX_APP_NAME" then some "srv" else none⟩

/-- Legacy `project.json` with no start target and `options.main` equal to
`src/main.ts`, which has the file stem `main`. -/
def c9wJson : Json :=
  .obj [("targets", .obj
    [("build", .obj [("executor", .str "custom"),
                     ("options", .obj [("main", .str "src/main.ts")])])])]

/-- Decoded project config of `c9wJson`. -/
def c9wPj : ProjectJson := ⟨⟨⟨"custom", some ⟨none, some "src/main.ts"⟩, none⟩, none⟩⟩

/-- Tree carrying `c9wJson` at the legacy path for app `api`. -/
def c9wApp : App where
  files := fun p => if p = "./apps/api/project.json" then some c9wJson else none
  includesFile := fun p => p == "nx.json"
  includesDirectory := fun _ => false
  findDirectories := fun _ => none
  dlxCommand := "npx"

/-- Environment overriding the app name to `api`. -/
def c9wEnv : Env := ⟨fun v => if v = "NX_APP_NAME" then some "api" else none⟩

/-- Empty tree: no `nx.json`, no config anywhere. -/
def c10App : App where
  files := fun _ => none
  includesFile := fun _ => false
  includesDirectory := fun _ => false
  findDirectories := fun _ => none
  dlxCommand := "npx"

/-- Environment overriding the app name to `solo`. -/
def c10Env : Env := ⟨fun v => if v = "NX_APP_NAME" then some "solo" else none⟩

/-- Empty environment. -/
def c10EnvN : Env := ⟨fun _ => none⟩

/-! ## Round-trip lemmas for the (de)serializers -/

/-- Decoding inverts encoding on optional `Value` field values that are not
an explicit `Some null`. -/
theorem normOptValue_encOptJson (op : Option Json) (h : noNullOpt op = true) :
    normOptValue (encOptJson op) = op := by
  cases op with
  | none => rfl
  | some j => cases j <;> first | rfl | exact Bool.noConfusion h

/-- Decoding inverts encoding on optional `String` field values. -/
theorem normOptString_encOptString (m : Option String) :
    normOptString (encOptString m) = some m := by cases m <;> rfl

/-- Round trip of `NxTargetOptions` when `output_path` is not `Some null`. -/
theorem decode_encode_options (o : NxTargetOptions) (h : noNullOpt o.output_path = true) :
    decodeNxTargetOptions (encodeNxTargetOptions o) = some o := by
  obtain ⟨op, m⟩ := o
  simp [encodeNxTargetOptions, decodeNxTargetOptions, aliasValueField, Json.getField,
        optStringField, normOptValue_encOptJson _ h, normOptString_encOptString]

/-- Round trip of `Configuration` when `production` is not `Some null`. -/
theorem decode_encode_configuration (c : Configuration) (h : noNullOpt c.production = true) :
    decodeConfiguration (encodeConfiguration c) = some c := by
  obtain ⟨p⟩ := c
  simp [encodeConfiguration, decodeConfiguration, Json.getField,
        normOptValue_encOptJson _ h]

/-- Round trip of `Target` on round-trip-safe values. -/
theorem decode_encode_target (t : Target) (h : targetSafe t = true) :
    decodeTarget (encodeTarget t) = some t := by
  obtain ⟨e, o, c⟩ := t
  rw [targetSafe, Bool.and_eq_true] at h
  obtain ⟨h1, h2⟩ := h
  cases o with
  | none =>
    cases c with
    | none => rfl
    | some cfg =>
      simp [encodeTarget, decodeTarget, Json.getField, optStructField,
            encOptStruct, encodeConfiguration, decodeConfiguration,
            normOptValue_encOptJson _ h2]
  | some opts =>
    obtain ⟨op, m⟩ := opts
    cases c with
    | none =>
      simp [encodeTarget, decodeTarget, Json.getField, optStructField,
            encOptStruct, encodeNxTargetOptions, decodeNxTargetOptions,
            aliasValueField, optStringField,
            normOptValue_encOptJson _ h1, normOptString_encOptString]
    | some cfg =>
      simp [encodeTarget, decodeTarget, Json.getField, optStructField,
            encOptStruct, encodeNxTargetOptions, decodeNxTargetOptions,
            aliasValueField, optStringField, encodeConfiguration, decodeConfiguration,
            normOptValue_encOptJson _ h1, normOptValue_encOptJson _ h2,
            normOptString_encOptString]

/-- Round trip of `Targets` on round-trip-safe values. -/
theorem decode_encode_targets (ts : Targets) (h : targetsSafe ts = true) :
    decodeTargets (encodeTargets ts) = some ts := by
  obtain ⟨b, st⟩ := ts
  rw [targetsSafe, Bool.and_eq_true] at h
  obtain ⟨h1, h2⟩ := h
  cases st with
  | none =>
    simp [encodeTargets, decodeTargets, Json.getField, optStructField, encOptStruct,
          decode_encode_target _ h1]
  | some s =>
    obtain ⟨e, o, c⟩ := s
    have h1a : targetSafe b = true := h1
    have h2a : targetSafe ⟨e, o, c⟩ = true := by simpa using h2
    have hbd := decode_encode_target b h1a
    have hd := decode_encode_target ⟨e, o, c⟩ h2a
    simp only [encodeTarget, encOptStruct] at hbd hd
    simp [encodeTargets, decodeTargets, Json.getField, optStructField, encOptStruct,
          encodeTarget, hbd, hd]

/-- Round trip of `ProjectJson` on round-trip-safe values. -/
theorem decode_encode_project_json (pj : ProjectJson) (h : projectJsonSafe pj = true) :
    decodeProjectJson (encodeProjectJson pj) = some pj := by
  obtain ⟨ts⟩ := pj
  simp [encodeProjectJson, decodeProjectJson, Json.getField, decode_encode_targets _ h]

/-- Round trip of `NxJson`, unconditional: its only field is an optional
string, which survives the `None` to `null` to `None` cycle. -/
theorem decode_encode_nx_json (nj : NxJson) :
    decodeNxJson (encodeNxJson nj) = some nj := by
  obtain ⟨d⟩ := nj
  simp [encodeNxJson, decodeNxJson, aliasStringField, Json.getField,
        normOptString_encOptString]

/-! ## Structural lemmas about the `Nx` functions -/

/-- A true `is_nx_monorepo` yields a resolved name, a loaded config, and the
root marker file. -/
theorem is_nx_monorepo_spec (app : App) (env : Env)
    (hm : is_nx_monorepo app env = true) :
    ∃ nm pj, get_nx_app_name app env = some nm ∧
      get_nx_project_json_for_app app nm = .ok pj ∧
      app.includesFile "nx.json" = true := by
  unfold is_nx_monorepo at hm
  rcases hn : get_nx_app_name app env with _ | nm
  · rw [hn] at hm; exact absurd hm (by simp)
  · rw [hn] at hm
    simp only [Bool.and_eq_true] at hm
    rcases hpj : get_nx_project_json_for_app app nm with e | pj
    · rw [hpj] at hm; simp [exceptOk] at hm
    · exact ⟨nm, pj, rfl, hpj, hm.1⟩

/-- The output-path query never fails once the config has loaded. -/
theorem get_nx_output_path_ok (app : App) (nm : String) (pj : ProjectJson)
    (hpj : get_nx_project_json_for_app app nm = .ok pj) :
    ∃ p, get_nx_output_path app nm = .ok p := by
  rcases ho : pj.targets.build.options with _ | o
  · exact ⟨"dist/apps/" ++ nm, by simp [get_nx_output_path, hpj, ho]⟩
  · rcases hop : o.output_path with _ | j
    · exact ⟨"dist/apps/" ++ nm, by simp [get_nx_output_path, hpj, ho, hop]⟩
    · rcases hs : j.asStr with _ | s
      · exact ⟨"dist/apps/" ++ nm, by simp [get_nx_output_path, hpj, ho, hop, hs]⟩
      · exact ⟨s, by simp [get_nx_output_path, hpj, ho, hop, hs]⟩

/-- On a detected monorepo, `get_nx_start_cmd` computes exactly the decision
table `startCommandRules` over the loaded config and resolved output path. -/
theorem start_cmd_cases (app : App) (env : Env) (nm : String) (pj : ProjectJson)
    (outp : String)
    (hm : is_nx_monorepo app env = true)
    (hn : get_nx_app_name app env = some nm)
    (hpj : get_nx_project_json_for_app app nm = .ok pj)
    (hout : get_nx_output_path app nm = .ok outp) :
    get_nx_start_cmd app env = startCommandRules app.dlxCommand nm outp pj := by
  unfold get_nx_start_cmd startCommandRules
  rw [hm]
  rw [if_pos rfl]
  simp only [hn, hout, hpj]
  rcases pj.targets.start with _ | st
  · by_cases hex : pj.targets.build.executor = "@nx/next:build" ∨
        pj.targets.build.executor = "@nrwl/next:build"
    · simp [hex]
    · simp only [hex, Bool.or_eq_true, decide_eq_true_eq, if_false]
      rcases pj.targets.build.options with _ | o
      · rfl
      · simp only [Option.bind]
  · rfl

/-- One step of the scan loop on a valid directory name. -/
theorem scanDirs_cons_some (app : App) (nm : String) (tl : List (Option String)) :
    scanDirs app (some nm :: tl) =
      if passesCheck app nm then some nm else scanDirs app tl := by
  by_cases h1 : app.includesFile ("apps/" ++ nm ++ "/project.json") = true
  · simp [scanDirs, passesCheck, h1]
  · by_cases h2 : app.includesFile ("apps/" ++ nm ++ "/package.json") = true
    · rcases hf : app.files ("apps/" ++ nm ++ "/package.json") with _ | pkg
      · simp [scanDirs, passesCheck, h1, h2, hf]
      · by_cases h3 : ((pkg.get "nx").bind (fun nx => nx.get "targets")).isSome = true
        · simp [scanDirs, passesCheck, h1, h2, hf, h3]
        · simp [scanDirs, passesCheck, h1, h2, hf, h3]
    · simp [scanDirs, passesCheck, h1, h2]

/-- The scan loop is first-match over the directory list in the order given,
skipping entries without a valid name. -/
theorem scanDirs_eq_find (app : App) (l : List (Option String)) :
    scanDirs app l = (l.filterMap id).find? (passesCheck app) := by
  induction l with
  | nil => rfl
  | cons hd tl ih =>
    cases hd with
    | none => simpa [scanDirs] using ih
    | some nm =>
      rw [scanDirs_cons_some]
      by_cases hp : passesCheck app nm = true
      · simp [hp, List.find?_cons_of_pos]
      · simp only [Bool.not_eq_true] at hp
        simp [hp, List.find?_cons_of_neg, ih]

/-! ## The claims -/

/-- Claim C1 (corrected).  The production-start rule fires whenever the
deserialized start target carries a configurations object whose `production`
field is present after deserialization.  Because serde maps an explicit JSON
`null` in an `Option<Value>` position to an absent field, a JSON
`production: null` de-selects the rule, while `production: false` (and every
other non-null value) still selects it: the check is key-presence on the
deserialized struct, which is presence-of-a-non-null-value on the JSON text. -/
theorem c1_production_rule (app : App) (env : Env) (nm : String)
    (pj : ProjectJson) (st : Target) (cfg : Configuration)
    (hm : is_nx_monorepo app env = true)
    (hn : get_nx_app_name app env = some nm)
    (hpj : get_nx_project_json_for_app app nm = .ok pj)
    (hst : pj.targets.start = some st)
    (hcfg : st.configurations = some cfg)
    (hprod : cfg.production.isSome = true) :
    get_nx_start_cmd app env =
      .ok (some (app.dlxCommand ++ " nx run " ++ nm ++ ":start:production")) ∧
    decodeConfiguration (Json.obj [("production", Json.null)]) = some ⟨none⟩ ∧
    decodeConfiguration (Json.obj [("production", Json.bool false)]) =
      some ⟨some (Json.bool false)⟩ := by
  refine ⟨?_, rfl, rfl⟩
  obtain ⟨outp, hout⟩ := get_nx_output_path_ok app nm pj hpj
  rw [start_cmd_cases app env nm pj outp hm hn hpj hout]
  simp [startCommandRules, hst, hcfg, hprod]

/-- Witness for C1: with `production: false` in the start configurations,
the production-start command is returned. -/
theorem c1_witness :
    get_nx_start_cmd c1wApp c1wEnv = .ok (some "npx nx run api:start:production") :=
  (c1_production_rule c1wApp c1wEnv "api" c1wPj c1wStart c1wCfg
    rfl rfl rfl rfl rfl rfl).1

/-- Counterexample for C1 as stated: in `c1App` the JSON text has the key
`production` with value `null` in the start configurations, yet the start
command synthesized is the plain `start` command, not the production one. -/
theorem c1_counterexample :
    ((((c1Json.get "targets").bind (fun t => t.get "start")).bind
        (fun st => st.get "configurations")).bind (fun c => c.get "production")) =
      some Json.null ∧
    get_nx_start_cmd c1App c1Env = .ok (some "npx nx run api:start") ∧
    StartResult.ok (some "npx nx run api:start") ≠
      StartResult.ok (some "npx nx run api:start:production") :=
  ⟨rfl, rfl, by decide⟩

/-- Claim C2 (corrected).  Auto-discovery does not sort: when the override
and the root default-project both miss, `get_nx_app_name` returns the first
passing directory in exactly the order `find_directories` returned the
entries (invalid names skipped), so the result depends on that order. -/
theorem c2_scan_in_returned_order (app : App) (env : Env) (dirs : List (Option String))
    (he : env.getConfigVariable nxAppNameEnvVar = none)
    (hx : (readNxJson app).bind NxJson.default_project = none)
    (hd : app.includesDirectory "apps" = true)
    (hf : app.findDirectories "apps/*" = some dirs) :
    get_nx_app_name app env = (dirs.filterMap id).find? (passesCheck app) := by
  simp [get_nx_app_name, he, hx, autoDiscover, hd, hf, scanDirs_eq_find]

/-- Witness for C2: the scan over `[b, a]` is first-match in that order. -/
theorem c2_witness :
    get_nx_app_name c2App c2Env =
      ([some "b", some "a"].filterMap id).find? (passesCheck c2App) :=
  c2_scan_in_returned_order c2App c2Env [some "b", some "a"] rfl rfl rfl rfl

/-- Counterexample for C2 as stated: `c2App` and `c2AppAB` are identical
trees except that `find_directories` returns the same two passing
directories in opposite orders; the two runs return different names, and the
run given `[b, a]` returns `b` even though `a` also passes, so the result is
not the alphabetically first passing directory independently of order. -/
theorem c2_counterexample :
    passesCheck c2App "a" = true ∧ passesCheck c2App "b" = true ∧
    get_nx_app_name c2App c2Env = some "b" ∧
    get_nx_app_name c2AppAB c2Env = some "a" ∧
    (some "b" : Option String) ≠ some "a" :=
  ⟨rfl, rfl, rfl, rfl, by decide⟩

/-- Claim C3 (corrected).  `get_nx_start_cmd` returns `Ok(None)` whenever
`is_nx_monorepo` is false; otherwise the result is the first applicable rule
of the fixed decision table `startCommandRules`, evaluated in order — with
rule (d) refined: it yields `node <output_path>/<stem>.js` when
`options.main` has a file stem, and aborts (unwrap panic) when `main` is
present but has no file stem. -/
theorem c3_start_rules (app : App) (env : Env) :
    (is_nx_monorepo app env = false → get_nx_start_cmd app env = .ok none) ∧
    (∀ nm pj outp, is_nx_monorepo app env = true →
      get_nx_app_name app env = some nm →
      get_nx_project_json_for_app app nm = .ok pj →
      get_nx_output_path app nm = .ok outp →
      get_nx_start_cmd app env = startCommandRules app.dlxCommand nm outp pj) := by
  constructor
  · intro h; simp [get_nx_start_cmd, h]
  · intro nm pj outp hm hn hpj hout
    exact start_cmd_cases app env nm pj outp hm hn hpj hout

/-- Witness for C3: a monorepo with a start target follows the decision
table, and a non-monorepo tree yields `Ok(None)`. -/
theorem c3_witness :
    get_nx_start_cmd c3wApp c3wEnv =
      startCommandRules c3wApp.dlxCommand "api" "dist/apps/api" c3wPj ∧
    get_nx_start_cmd c3nApp c3nEnv = .ok none :=
  ⟨(c3_start_rules c3wApp c3wEnv).2 "api" c3wPj "dist/apps/api" rfl rfl rfl rfl,
   (c3_start_rules c3nApp c3nEnv).1 rfl⟩

/-- Counterexample for C3 as stated: `c3App` is a detected monorepo with no
start target, a non-Next executor, and `options.main = ""`; no rule yields a
command — the call panics instead of returning an `Ok` value. -/
theorem c3_counterexample :
    is_nx_monorepo c3App c3Env = true ∧
    get_nx_start_cmd c3App c3Env = StartResult.panic :=
  ⟨rfl, rfl⟩

/-- Claim C4 (confirmed).  Config loading is asymmetric: a failed read or
parse of the legacy `apps/<name>/project.json` never surfaces an error — the
loader falls through to the `package.json` source — while, when the manifest
parses and contains `nx.targets`, a failure to deserialize that value into
the `Targets` shape is returned as the fatal parse error. -/
theorem c4_asymmetric_config_loading (app : App) (nm : String) :
    ((app.files ("./apps/" ++ nm ++ "/project.json")).bind decodeProjectJson = none →
      get_nx_project_json_for_app app nm = tryPackageJson app nm) ∧
    (∀ pkg nxv tv,
      (app.files ("./apps/" ++ nm ++ "/project.json")).bind decodeProjectJson = none →
      app.files ("./apps/" ++ nm ++ "/package.json") = some pkg →
      pkg.get "nx" = some nxv →
      nxv.get "targets" = some tv →
      decodeTargets tv = none →
      get_nx_project_json_for_app app nm = .error .parseError) := by
  constructor
  · intro h; simp [get_nx_project_json_for_app, h]
  · intro pkg nxv tv h h1 h2 h3 h4
    simp [get_nx_project_json_for_app, h, tryPackageJson, h1, h2, h3, h4]

/-- Witness for C4: a tree with no legacy file and a manifest whose
`nx.targets` is a string falls through to the manifest and fails fatally. -/
theorem c4_witness :
    get_nx_project_json_for_app c4App "api" = tryPackageJson c4App "api" ∧
    get_nx_project_json_for_app c4App "api" = .error .parseError :=
  ⟨(c4_asymmetric_config_loading c4App "api").1 rfl,
   (c4_asymmetric_config_loading c4App "api").2 c4Pkg c4Targets (Json.str "bad")
     rfl rfl rfl rfl rfl⟩

/-- Claim C5 (confirmed).  App-name resolution is strict first-match-wins:
a set override variable is returned verbatim; otherwise a parsed `nx.json`
with a `default_project` wins; otherwise the auto-discovery scan decides;
and when all three miss the result is `None` — the return type admits no
error. -/
theorem c5_name_precedence (app : App) (env : Env) :
    (∀ v, env.getConfigVariable nxAppNameEnvVar = some v →
        get_nx_app_name app env = some v) ∧
    (∀ d, env.getConfigVariable nxAppNameEnvVar = none →
        (readNxJson app).bind NxJson.default_project = some d →
        get_nx_app_name app env = some d) ∧
    (env.getConfigVariable nxAppNameEnvVar = none →
        (readNxJson app).bind NxJson.default_project = none →
        get_nx_app_name app env = autoDiscover app) ∧
    (env.getConfigVariable nxAppNameEnvVar = none →
        (readNxJson app).bind NxJson.default_project = none →
        autoDiscover app = none →
        get_nx_app_name app env = none) := by
  refine ⟨fun v hv => ?_, fun d he hd => ?_, fun he hn => ?_, fun he hn ha => ?_⟩ <;>
    simp [get_nx_app_name, *]

/-- Witness for C5: the override beats a conflicting default project; the
default project beats a scannable `apps/zz`; the scan fires when both miss;
and an empty tree resolves to `None`. -/
theorem c5_witness :
    get_nx_app_name c5App c5EnvA = some "ov" ∧
    get_nx_app_name c5App c5EnvN = some "dflt" ∧
    get_nx_app_name c5AppC c5EnvN = some "zz" ∧
    get_nx_app_name c5AppD c5EnvN = none :=
  ⟨(c5_name_precedence c5App c5EnvA).1 "ov" rfl,
   (c5_name_precedence c5App c5EnvN).2.1 "dflt" rfl rfl,
   Eq.trans ((c5_name_precedence c5AppC c5EnvN).2.2.1 rfl rfl) rfl,
   (c5_name_precedence c5AppD c5EnvN).2.2.2 rfl rfl rfl⟩

/-- Claim C6 (confirmed).  When the legacy `apps/<name>/project.json` parses
into a `ProjectJson` and the manifest also carries an `nx.targets` field, the
loader returns the legacy configuration. -/
theorem c6_legacy_project_json_wins (app : App) (nm : String) (pj : ProjectJson) (tv : Json)
    (hleg : (app.files ("./apps/" ++ nm ++ "/project.json")).bind decodeProjectJson = some pj)
    (hpkg : ((app.files ("./apps/" ++ nm ++ "/package.json")).bind
        (fun pkgJson => pkgJson.get "nx")).bind (fun nx => nx.get "targets") = some tv) :
    get_nx_project_json_for_app app nm = .ok pj := by
  simp [get_nx_project_json_for_app, hleg]

/-- Witness for C6: app `dual` has both sources naming different executors;
the legacy one is returned. -/
theorem c6_witness : get_nx_project_json_for_app c6App "dual" = .ok c6Pj :=
  c6_legacy_project_json_wins c6App "dual" c6Pj c6TgJson rfl rfl

/-- Claim C7 (confirmed).  When the config loads, the resolved output path
is the build target `options.output_path` exactly when that value is a JSON
string scalar, and `dist/apps/<name>` in every other case (options absent,
`output_path` absent, or a non-string JSON value). -/
theorem c7_output_path_string_or_default (app : App) (nm : String) (pj : ProjectJson)
    (hpj : get_nx_project_json_for_app app nm = .ok pj) :
    (∀ s, (pj.targets.build.options.bind NxTargetOptions.output_path).bind Json.asStr = some s →
        get_nx_output_path app nm = .ok s) ∧
    ((pj.targets.build.options.bind NxTargetOptions.output_path).bind Json.asStr = none →
        get_nx_output_path app nm = .ok ("dist/apps/" ++ nm)) := by
  constructor
  · intro s hs
    rcases ho : pj.targets.build.options with _ | o
    · rw [ho] at hs; simp at hs
    · rcases hop : o.output_path with _ | j
      · simp only [ho, Option.bind, hop] at hs
        exact Option.noConfusion hs
      · simp only [ho, Option.bind, hop] at hs
        simp [get_nx_output_path, hpj, ho, hop, hs]
  · intro hs
    rcases ho : pj.targets.build.options with _ | o
    · simp [get_nx_output_path, hpj, ho]
    · rcases hop : o.output_path with _ | j
      · simp [get_nx_output_path, hpj, ho, hop]
      · simp only [ho, Option.bind, hop] at hs
        simp [get_nx_output_path, hpj, ho, hop, hs]

/-- Witness for C7: a string `output_path` is returned verbatim and a
numeric one falls back to the default. -/
theorem c7_witness :
    get_nx_output_path c7AppS "api" = .ok "custom/out" ∧
    get_nx_output_path c7AppN "api" = .ok "dist/apps/api" :=
  ⟨(c7_output_path_string_or_default c7AppS "api" c7SPj rfl).1 "custom/out" rfl,
   (c7_output_path_string_or_default c7AppN "api" c7NPj rfl).2 rfl⟩

/-- Claim C8 (corrected).  Encoding then decoding `NxJson`, `ProjectJson`
and `Target` restores the value exactly — in particular the presence or
absence of every optional field — for all values in which no optional
JSON-value field (`options.output_path`, `configurations.production`) holds
an explicit JSON `null`; `NxJson` round-trips unconditionally. -/
theorem c8_roundtrip_nonnull (nj : NxJson) (pj : ProjectJson) (t : Target)
    (hpj : projectJsonSafe pj = true) (ht : targetSafe t = true) :
    decodeNxJson (encodeNxJson nj) = some nj ∧
    decodeProjectJson (encodeProjectJson pj) = some pj ∧
    decodeTarget (encodeTarget t) = some t :=
  ⟨decode_encode_nx_json nj, decode_encode_project_json pj hpj, decode_encode_target t ht⟩

/-- Witness for C8: concrete values with every optional field populated by
non-null data round-trip exactly. -/
theorem c8_witness :
    decodeNxJson (encodeNxJson ⟨some "app1"⟩) = some ⟨some "app1"⟩ ∧
    decodeProjectJson (encodeProjectJson c8wPj) = some c8wPj ∧
    decodeTarget (encodeTarget c8wStart) = some c8wStart :=
  c8_roundtrip_nonnull ⟨some "app1"⟩ c8wPj c8wStart rfl rfl

/-- Counterexample for C8 as stated: a `Target` whose `production` field is
`Some null` encodes to JSON `null` and decodes back as an absent field, so
the round trip does not preserve presence of that optional field. -/
theorem c8_counterexample :
    decodeTarget (encodeTarget ⟨"x", none, some ⟨some Json.null⟩⟩) =
      some ⟨"x", none, some ⟨none⟩⟩ ∧
    (Configuration.mk (some Json.null)).production.isSome = true ∧
    (Configuration.mk none).production.isSome = false :=
  ⟨rfl, rfl, rfl⟩

/-- Claim C9 (corrected).  `get_nx_start_cmd` never aborts provided that any
`options.main` reachable in rule (d) — no start target, loaded config — has
a file stem; the `file_stem().unwrap()` is exactly as safe as that
hypothesis, and fails for stem-less mains such as `""` or `".."`. -/
theorem c9_total_unless_stemless_main (app : App) (env : Env)
    (h : ∀ nm pj m, get_nx_app_name app env = some nm →
      get_nx_project_json_for_app app nm = .ok pj →
      pj.targets.start = none →
      pj.targets.build.options.bind NxTargetOptions.main = some m →
      (rustFileStem m).isSome = true) :
    get_nx_start_cmd app env ≠ StartResult.panic := by
  intro hpanic
  by_cases hm : is_nx_monorepo app env = true
  · obtain ⟨nm, pj, hn, hpj, _⟩ := is_nx_monorepo_spec app env hm
    obtain ⟨outp, hout⟩ := get_nx_output_path_ok app nm pj hpj
    rw [start_cmd_cases app env nm pj outp hm hn hpj hout] at hpanic
    unfold startCommandRules at hpanic
    rcases hst : pj.targets.start with _ | st
    · simp only [hst] at hpanic
      by_cases hex : pj.targets.build.executor = "@nx/next:build" ∨
          pj.targets.build.executor = "@nrwl/next:build"
      · rw [if_pos hex] at hpanic; exact StartResult.noConfusion hpanic
      · rw [if_neg hex] at hpanic
        rcases hmn : pj.targets.build.options.bind NxTargetOptions.main with _ | m
        · simp only [hmn] at hpanic; exact StartResult.noConfusion hpanic
        · have hstem := h nm pj m hn hpj hst hmn
          rcases hsv : rustFileStem m with _ | stem
          · rw [hsv] at hstem; simp at hstem
          · simp only [hmn, hsv] at hpanic; exact StartResult.noConfusion hpanic
    · simp only [hst] at hpanic
      rcases hcf : st.configurations with _ | cf
      · simp only [hcf] at hpanic; exact StartResult.noConfusion hpanic
      · simp only [hcf] at hpanic
        by_cases hp : cf.production.isSome = true
        · rw [if_pos hp] at hpanic; exact StartResult.noConfusion hpanic
        · rw [if_neg hp] at hpanic; exact StartResult.noConfusion hpanic
  · unfold get_nx_start_cmd at hpanic
    rw [Bool.not_eq_true] at hm
    rw [hm] at hpanic
    simp at hpanic

/-- Witness for C9: on a tree whose only `main` is `src/main.ts` (stem
`main`), the start command cannot panic. -/
theorem c9_witness : get_nx_start_cmd c9wApp c9wEnv ≠ StartResult.panic :=
  c9_total_unless_stemless_main c9wApp c9wEnv (by
    intro nm pj m hn hpj hst hmn
    rw [show get_nx_app_name c9wApp c9wEnv = some "api" from rfl] at hn
    injection hn with h1
    subst h1
    rw [show get_nx_project_json_for_app c9wApp "api" = Except.ok c9wPj from rfl] at hpj
    injection hpj with h2
    subst h2
    rw [show c9wPj.targets.build.options.bind NxTargetOptions.main =
        some "src/main.ts" from rfl] at hmn
    injection hmn with h3
    subst h3
    rfl)

/-- Counterexample for C9 as stated: `".."` and `""` have no file stem, and
on the tree `c9App`, whose build `options.main` is `".."`, the start-command
computation aborts in the `unwrap` instead of returning a `Result`. -/
theorem c9_counterexample :
    rustFileStem ".." = none ∧ rustFileStem "" = none ∧
    get_nx_start_cmd c9App c9Env = StartResult.panic :=
  ⟨rfl, rfl, rfl⟩

/-- Claim C10 (confirmed).  The build command is synthesized from the
resolved name alone: for every tree and environment, it is `Some` — the dlx
prefix with `nx run <name>:build:production` — exactly when a name resolves
(no monorepo or config check), and `None` exactly when no name resolves. -/
theorem c10_build_cmd_iff_name (app : App) (env : Env) :
    (∀ nm, get_nx_app_name app env = some nm →
        get_nx_build_cmd app env =
          some (app.dlxCommand ++ " nx run " ++ nm ++ ":build:production")) ∧
    (get_nx_app_name app env = none → get_nx_build_cmd app env = none) := by
  constructor
  · intro nm h; simp [get_nx_build_cmd, h]
  · intro h; simp [get_nx_build_cmd, h]

/-- Witness for C10: an empty tree with only the override set is not a
monorepo yet still yields a build command; without the override it yields
none. -/
theorem c10_witness :
    is_nx_monorepo c10App c10Env = false ∧
    get_nx_build_cmd c10App c10Env = some "npx nx run solo:build:production" ∧
    get_nx_build_cmd c10App c10EnvN = none :=
  ⟨rfl, (c10_build_cmd_iff_name c10App c10Env).1 "solo" rfl,
   (c10_build_cmd_iff_name c10App c10EnvN).2 rfl⟩
